import Mathlib

/-!
Verification of the poll-until-terminal-state logic of the repository.

The repository contains two notebooks; the only non-trivial logic is

* `wait_till_delete` in
  `sagemaker-pipelines/time_series_forecasting/amazon_forecast_pipeline/
  sm_pipeline_with_amazon_forecast.ipynb`:

    def wait_till_delete(callback, check_time=5, timeout=100):
        elapsed_time = 0
        while timeout is None or elapsed_time < timeout:
            try:
                out = callback()
            except botocore.exceptions.ClientError as e:
                if e.response["Error"]["Code"] == "ResourceNotFoundException":
                    print("Successful delete")
                    return
                else:
                    raise
            time.sleep(check_time)
            elapsed_time += check_time
        raise TimeoutError("Forecast resource deletion timed-out.")

* the training-status polling loop in
  `introduction_to_amazon_algorithms/xgboost_abalone/
  xgboost_parquet_input_training.ipynb`:

    status = client.describe_training_job(TrainingJobName=job_name)["TrainingJobStatus"]
    while status != "Completed" and status != "Failed":
        time.sleep(60)
        status = client.describe_training_job(TrainingJobName=job_name)["TrainingJobStatus"]

The embedding below is a shallow one: the probe (`callback`, respectively
the repeated `describe_training_job` call) is modelled as a function from
the invocation index (0-based) to its observable outcome, and the loops
are modelled as fuel-indexed recursive functions returning `none` when
the fuel runs out (the source loops have no iteration bound of their own;
every theorem quantifies over sufficient fuel).  Durations are natural
numbers of seconds.  The run of a loop is instrumented with the number of
probe invocations, the number of sleeps and the total slept time, so the
claims about those quantities can be stated.
-/

/-- Observable outcome of one invocation of the probe (`callback()`):
it returns normally (the returned value is bound to `out` and never used,
so it is not modelled), raises `botocore.exceptions.ClientError` carrying
an error code string, or raises an exception of any other type (the `tag`
identifies the exception so that propagation "unchanged" can be stated). -/
inductive ProbeOutcome where
  | ret : ProbeOutcome
  | raiseClient : String → ProbeOutcome
  | raiseOther : String → ProbeOutcome
deriving DecidableEq, Repr

/-- Observable way a `wait_till_delete` run finishes: normal return after
the "Successful delete" print, the `raise TimeoutError(...)` after the
loop, a re-raised `ClientError` (the bare `raise` in the `else` branch),
or a propagated exception of another type (not caught by the
`except botocore.exceptions.ClientError` clause at all). -/
inductive WaitResult where
  | success : WaitResult
  | timedOut : WaitResult
  | raisedClient : String → WaitResult
  | raisedOther : String → WaitResult
deriving DecidableEq, Repr

/-- Instrumented trace of a finished `wait_till_delete` run: the way it
finished, the number of probe invocations, the number of `time.sleep`
calls, the total seconds slept, and the final value of the
`elapsed_time` variable. -/
structure WaitTrace where
  result : WaitResult
  calls : Nat
  sleeps : Nat
  slept : Nat
  elapsed : Nat
deriving DecidableEq, Repr

/-- Error code treated as the deletion-complete signal in the source:
`e.response["Error"]["Code"] == "ResourceNotFoundException"`. -/
def resourceNotFound : String := "ResourceNotFoundException"

/-- Condition of the `while` loop: `timeout is None or elapsed_time < timeout`. -/
def loopCond (timeout : Option Nat) (elapsed : Nat) : Bool :=
  match timeout with
  | none => true
  | some T => elapsed < T

/-- Body of `wait_till_delete`, one fuel unit per loop iteration.
Arguments after `timeout`: fuel, `elapsed_time`, probe invocations so
far, sleeps so far, seconds slept so far.  Returns `none` when the fuel
is exhausted before the run finishes. -/
def waitLoop (p : Nat → ProbeOutcome) (ct : Nat) (timeout : Option Nat) :
    Nat → Nat → Nat → Nat → Nat → Option WaitTrace
  | 0, elapsed, c, s, sl =>
      if loopCond timeout elapsed then none
      else some ⟨.timedOut, c, s, sl, elapsed⟩
  | fuel + 1, elapsed, c, s, sl =>
      if loopCond timeout elapsed then
        match p c with
        | .ret => waitLoop p ct timeout fuel (elapsed + ct) (c + 1) (s + 1) (sl + ct)
        | .raiseClient code =>
            if code = resourceNotFound then some ⟨.success, c + 1, s, sl, elapsed⟩
            else some ⟨.raisedClient code, c + 1, s, sl, elapsed⟩
        | .raiseOther tag => some ⟨.raisedOther tag, c + 1, s, sl, elapsed⟩
      else some ⟨.timedOut, c, s, sl, elapsed⟩

/-- Embedding of `wait_till_delete(callback, check_time, timeout)`:
run `waitLoop` from `elapsed_time = 0` with all instrumentation counters
at zero. -/
def wait_till_delete (p : Nat → ProbeOutcome) (check_time : Nat)
    (timeout : Option Nat) (fuel : Nat) : Option WaitTrace :=
  waitLoop p check_time timeout fuel 0 0 0 0

/-- Embedding of the call `wait_till_delete(callback)` with the default
arguments of the source, `check_time=5` and `timeout=100`. -/
def wait_till_delete_defaults (p : Nat → ProbeOutcome) (fuel : Nat) :
    Option WaitTrace :=
  wait_till_delete p 5 (some 100) fuel

/-- Probe of the specification scenario: calls 1 and 2 return normally,
call 3 raises the `ClientError` with code `ResourceNotFoundException`. -/
def probeNF3 : Nat → ProbeOutcome := fun n =>
  if n < 2 then .ret else .raiseClient resourceNotFound

/-- Two sequential calls of `wait_till_delete` with independent probes:
the pair of their outcomes.  The embedding is pure state passing; like
the source function, which touches only its local variables
`elapsed_time` and `out`, no state flows from one call to the other. -/
def runTwice (p1 p2 : Nat → ProbeOutcome) (ct1 ct2 : Nat)
    (t1 t2 : Option Nat) (fuel1 fuel2 : Nat) :
    Option WaitTrace × Option WaitTrace :=
  (wait_till_delete p1 ct1 t1 fuel1, wait_till_delete p2 ct2 t2 fuel2)

/-- Instrumented trace of a finished training-status polling run: the
status observed when the loop exited, the number of
`describe_training_job` status reads, the number of `time.sleep(60)`
calls, and the total seconds slept. -/
structure PollTrace where
  status : String
  calls : Nat
  sleeps : Nat
  slept : Nat
deriving DecidableEq, Repr

/-- Body of the training-status polling loop of the XGBoost notebook,
one fuel unit per iteration.  `statuses n` is the status string returned
by the (n+1)-th `describe_training_job` call; arguments after that: fuel,
the current value of `status`, status reads so far, sleeps so far,
seconds slept so far.  The loop runs while
`status != "Completed" and status != "Failed"`. -/
def pollLoop (statuses : Nat → String) :
    Nat → String → Nat → Nat → Nat → Option PollTrace
  | 0, status, c, s, sl =>
      if status = "Completed" ∨ status = "Failed" then some ⟨status, c, s, sl⟩
      else none
  | fuel + 1, status, c, s, sl =>
      if status = "Completed" ∨ status = "Failed" then some ⟨status, c, s, sl⟩
      else pollLoop statuses fuel (statuses c) (c + 1) (s + 1) (sl + 60)

/-- Embedding of the whole polling cell: one initial status read, then
the loop. -/
def pollTraining (statuses : Nat → String) (fuel : Nat) : Option PollTrace :=
  pollLoop statuses fuel (statuses 0) 1 0 0

/-- Generic success run of the loop: if the probe returns normally for
`m` invocations starting at index `c` and then raises the not-found
`ClientError`, and the loop condition holds at each of the `m + 1`
iteration entries, the loop returns the success trace with `m + 1`
probe invocations and `m` sleeps of `ct` seconds each. -/
theorem waitLoop_success_run (p : Nat → ProbeOutcome) (ct : Nat) (timeout : Option Nat) :
    ∀ (m fuel elapsed c s sl : Nat), m < fuel →
    (∀ j, j < m → p (c + j) = .ret) →
    p (c + m) = .raiseClient resourceNotFound →
    (∀ j, j ≤ m → loopCond timeout (elapsed + j * ct) = true) →
    waitLoop p ct timeout fuel elapsed c s sl =
      some ⟨.success, c + m + 1, s + m, sl + m * ct, elapsed + m * ct⟩ := by
  intro m
  induction m with
  | zero =>
    intro fuel elapsed c s sl hfuel hret hnf hcond
    obtain ⟨f, rfl⟩ : ∃ f, fuel = f + 1 := ⟨fuel - 1, by omega⟩
    have h0 : loopCond timeout elapsed = true := by
      have h := hcond 0 (Nat.le_refl 0)
      simpa using h
    have hp : p c = .raiseClient resourceNotFound := by simpa using hnf
    simp [waitLoop, h0, hp]
  | succ m ih =>
    intro fuel elapsed c s sl hfuel hret hnf hcond
    obtain ⟨f, rfl⟩ : ∃ f, fuel = f + 1 := ⟨fuel - 1, by omega⟩
    have h0 : loopCond timeout elapsed = true := by
      have h := hcond 0 (Nat.zero_le _)
      simpa using h
    have hp : p c = .ret := by
      have h := hret 0 (Nat.succ_pos m)
      simpa using h
    have hrec := ih f (elapsed + ct) (c + 1) (s + 1) (sl + ct) (by omega)
      (fun j hj => by
        have h := hret (j + 1) (by omega)
        rw [show c + 1 + j = c + (j + 1) by omega]
        exact h)
      (by
        rw [show c + 1 + m = c + (m + 1) by omega]
        exact hnf)
      (fun j hj => by
        have h := hcond (j + 1) (by omega)
        rw [show elapsed + ct + j * ct = elapsed + (j + 1) * ct by ring]
        exact h)
    simp only [waitLoop, h0, if_true, hp]
    rw [hrec, show c + 1 + m + 1 = c + (m + 1) + 1 by omega,
      show s + 1 + m = s + (m + 1) by omega,
      show sl + ct + m * ct = sl + (m + 1) * ct by ring,
      show elapsed + ct + m * ct = elapsed + (m + 1) * ct by ring]

/-- Generic timed-out run of the loop: if the probe always returns
normally, the loop condition holds for the first `m` iteration entries
and the elapsed time has reached the bound `T` after `m` iterations,
the loop raises the timeout after exactly `m` probe invocations and `m`
sleeps. -/
theorem waitLoop_timeout_run (p : Nat → ProbeOutcome) (ct T : Nat) :
    ∀ (m fuel elapsed c s sl : Nat), m < fuel →
    (∀ i, p i = .ret) →
    (∀ j, j < m → elapsed + j * ct < T) →
    T ≤ elapsed + m * ct →
    waitLoop p ct (some T) fuel elapsed c s sl =
      some ⟨.timedOut, c + m, s + m, sl + m * ct, elapsed + m * ct⟩ := by
  intro m
  induction m with
  | zero =>
    intro fuel elapsed c s sl hfuel hp hbelow hreach
    obtain ⟨f, rfl⟩ : ∃ f, fuel = f + 1 := ⟨fuel - 1, by omega⟩
    have h0 : loopCond (some T) elapsed = false := by
      simp only [loopCond, decide_eq_false_iff_not, Nat.not_lt]
      omega
    simp [waitLoop, h0]
  | succ m ih =>
    intro fuel elapsed c s sl hfuel hp hbelow hreach
    obtain ⟨f, rfl⟩ : ∃ f, fuel = f + 1 := ⟨fuel - 1, by omega⟩
    have h0 : loopCond (some T) elapsed = true := by
      have h := hbelow 0 (Nat.succ_pos m)
      simp only [loopCond, decide_eq_true_eq]
      omega
    have hrec := ih f (elapsed + ct) (c + 1) (s + 1) (sl + ct) (by omega) hp
      (fun j hj => by
        have h := hbelow (j + 1) (by omega)
        rw [show elapsed + ct + j * ct = elapsed + (j + 1) * ct by ring]
        exact h)
      (by
        rw [show elapsed + ct + m * ct = elapsed + (m + 1) * ct by ring]
        exact hreach)
    simp only [waitLoop, h0, if_true, hp c]
    rw [hrec, show c + 1 + m = c + (m + 1) by omega,
      show s + 1 + m = s + (m + 1) by omega,
      show sl + ct + m * ct = sl + (m + 1) * ct by ring,
      show elapsed + ct + m * ct = elapsed + (m + 1) * ct by ring]

/-- With `timeout = None` the loop condition is identically true, so the
`raise TimeoutError` line after the loop is unreachable: no finished run
has the timed-out result. -/
theorem waitLoop_none_not_timedOut (p : Nat → ProbeOutcome) (ct : Nat) :
    ∀ (fuel elapsed c s sl : Nat) (r : WaitTrace),
    waitLoop p ct none fuel elapsed c s sl = some r →
    r.result ≠ .timedOut := by
  intro fuel
  induction fuel with
  | zero =>
    intro elapsed c s sl r h
    simp [waitLoop, loopCond] at h
  | succ f ih =>
    intro elapsed c s sl r h
    have h0 : loopCond none elapsed = true := rfl
    simp only [waitLoop, h0, if_true] at h
    cases hp : p c with
    | ret =>
      rw [hp] at h
      exact ih _ _ _ _ _ h
    | raiseClient code =>
      rw [hp] at h
      by_cases hc : code = resourceNotFound
      · simp only [hc, if_true, Option.some.injEq] at h
        rw [← h]
        simp
      · simp only [hc, if_false, Option.some.injEq] at h
        rw [← h]
        simp
    | raiseOther tag =>
      rw [hp] at h
      simp only [Option.some.injEq] at h
      rw [← h]
      simp

/-- With a finite timeout and a positive check interval the loop always
finishes when given more fuel than `T - elapsed` iterations. -/
theorem waitLoop_total (p : Nat → ProbeOutcome) (ct T : Nat) (hct : 0 < ct) :
    ∀ (fuel elapsed c s sl : Nat), T - elapsed < fuel →
    (waitLoop p ct (some T) fuel elapsed c s sl).isSome = true := by
  intro fuel
  induction fuel with
  | zero =>
    intro elapsed c s sl h
    omega
  | succ f ih =>
    intro elapsed c s sl h
    by_cases he : elapsed < T
    · have h0 : loopCond (some T) elapsed = true := by
        simp only [loopCond, decide_eq_true_eq]
        omega
      simp only [waitLoop, h0, if_true]
      cases hp : p c with
      | ret => exact ih (elapsed + ct) (c + 1) (s + 1) (sl + ct) (by omega)
      | raiseClient code =>
        by_cases hc : code = resourceNotFound <;> simp [hc]
      | raiseOther tag => simp
    · have h0 : loopCond (some T) elapsed = false := by
        simp only [loopCond, decide_eq_false_iff_not, Nat.not_lt]
        omega
      simp [waitLoop, h0]

/-- With a finite timeout `T`, a run entered with `elapsed = c * ct`
either performs no probe invocation at all or finishes with
`calls * ct < T + ct`: the number of probe invocations is bounded by
the timeout divided by the check interval, rounded up. -/
theorem waitLoop_calls_bound (p : Nat → ProbeOutcome) (ct T : Nat) :
    ∀ (fuel elapsed c s sl : Nat) (r : WaitTrace), elapsed = c * ct →
    waitLoop p ct (some T) fuel elapsed c s sl = some r →
    r.calls = c ∨ r.calls * ct < T + ct := by
  intro fuel
  induction fuel with
  | zero =>
    intro elapsed c s sl r helapsed h
    by_cases he : elapsed < T
    · have h0 : loopCond (some T) elapsed = true := by
        simp only [loopCond, decide_eq_true_eq]
        omega
      simp [waitLoop, h0] at h
    · have h0 : loopCond (some T) elapsed = false := by
        simp only [loopCond, decide_eq_false_iff_not, Nat.not_lt]
        omega
      simp only [waitLoop, h0, Bool.false_eq_true, if_false, Option.some.injEq] at h
      rw [← h]
      exact Or.inl rfl
  | succ f ih =>
    intro elapsed c s sl r helapsed h
    by_cases he : elapsed < T
    · have h0 : loopCond (some T) elapsed = true := by
        simp only [loopCond, decide_eq_true_eq]
        omega
      simp only [waitLoop, h0, if_true] at h
      cases hp : p c with
      | ret =>
        rw [hp] at h
        have hrec := ih (elapsed + ct) (c + 1) (s + 1) (sl + ct) r
          (by rw [helapsed]; ring) h
        rcases hrec with h1 | h2
        · right
          rw [h1, Nat.succ_mul]
          omega
        · exact Or.inr h2
      | raiseClient code =>
        rw [hp] at h
        by_cases hc : code = resourceNotFound <;>
          · simp only [hc, if_true, if_false, Option.some.injEq] at h
            right
            rw [← h]
            simp only [Nat.succ_mul]
            omega
      | raiseOther tag =>
        rw [hp] at h
        simp only [Option.some.injEq] at h
        right
        rw [← h]
        simp only [Nat.succ_mul]
        omega
    · have h0 : loopCond (some T) elapsed = false := by
        simp only [loopCond, decide_eq_false_iff_not, Nat.not_lt]
        omega
      simp only [waitLoop, h0, Bool.false_eq_true, if_false, Option.some.injEq] at h
      rw [← h]
      exact Or.inl rfl

/-- The probe-invocation counter never decreases along a run. -/
theorem waitLoop_calls_mono (p : Nat → ProbeOutcome) (ct : Nat) (timeout : Option Nat) :
    ∀ (fuel elapsed c s sl : Nat) (r : WaitTrace),
    waitLoop p ct timeout fuel elapsed c s sl = some r →
    c ≤ r.calls := by
  intro fuel
  induction fuel with
  | zero =>
    intro elapsed c s sl r h
    by_cases h0 : loopCond timeout elapsed
    · simp [waitLoop, h0] at h
    · simp only [waitLoop, h0, Bool.false_eq_true, if_false, Option.some.injEq] at h
      rw [← h]
  | succ f ih =>
    intro elapsed c s sl r h
    by_cases h0 : loopCond timeout elapsed
    · simp only [waitLoop, h0, if_true] at h
      cases hp : p c with
      | ret =>
        rw [hp] at h
        have := ih _ _ _ _ _ h
        omega
      | raiseClient code =>
        rw [hp] at h
        by_cases hc : code = resourceNotFound <;>
          · simp only [hc, if_true, if_false, Option.some.injEq] at h
            rw [← h]
            simp
      | raiseOther tag =>
        rw [hp] at h
        simp only [Option.some.injEq] at h
        rw [← h]
        simp
    · simp only [waitLoop, h0, Bool.false_eq_true, if_false, Option.some.injEq] at h
      rw [← h]

/-- Loop invariant of `elapsed_time`: it is incremented by `ct` exactly
once per completed iteration (right after the sleep), so at every point
it equals the number of sleeps times the check interval, which is also
the total time slept. -/
theorem waitLoop_elapsed_invariant (p : Nat → ProbeOutcome) (ct : Nat) (timeout : Option Nat) :
    ∀ (fuel elapsed c s sl : Nat) (r : WaitTrace),
    elapsed = s * ct → sl = elapsed →
    waitLoop p ct timeout fuel elapsed c s sl = some r →
    r.elapsed = r.sleeps * ct ∧ r.slept = r.elapsed := by
  intro fuel
  induction fuel with
  | zero =>
    intro elapsed c s sl r h1 h2 h
    by_cases h0 : loopCond timeout elapsed
    · simp [waitLoop, h0] at h
    · simp only [waitLoop, h0, Bool.false_eq_true, if_false, Option.some.injEq] at h
      rw [← h]
      exact ⟨h1, h2⟩
  | succ f ih =>
    intro elapsed c s sl r h1 h2 h
    by_cases h0 : loopCond timeout elapsed
    · simp only [waitLoop, h0, if_true] at h
      cases hp : p c with
      | ret =>
        rw [hp] at h
        exact ih (elapsed + ct) (c + 1) (s + 1) (sl + ct) r
          (by rw [h1]; ring) (by rw [h2]) h
      | raiseClient code =>
        rw [hp] at h
        by_cases hc : code = resourceNotFound <;>
          · simp only [hc, if_true, if_false, Option.some.injEq] at h
            rw [← h]
            exact ⟨h1, h2⟩
      | raiseOther tag =>
        rw [hp] at h
        simp only [Option.some.injEq] at h
        rw [← h]
        exact ⟨h1, h2⟩
    · simp only [waitLoop, h0, Bool.false_eq_true, if_false, Option.some.injEq] at h
      rw [← h]
      exact ⟨h1, h2⟩

/-- Generic run of the training-status polling loop: entered with the
status read by the c-th `describe` call (`c ≥ 1`), if the next `m`
statuses starting there are non-terminal except the last, the loop exits
at the first terminal status after `m` further reads and `m` sleeps of
60 seconds each. -/
theorem pollLoop_run (statuses : Nat → String) :
    ∀ (m fuel c s sl : Nat), m ≤ fuel → 1 ≤ c →
    (∀ j, j < m → ¬(statuses (c - 1 + j) = "Completed" ∨ statuses (c - 1 + j) = "Failed")) →
    (statuses (c - 1 + m) = "Completed" ∨ statuses (c - 1 + m) = "Failed") →
    pollLoop statuses fuel (statuses (c - 1)) c s sl =
      some ⟨statuses (c - 1 + m), c + m, s + m, sl + 60 * m⟩ := by
  intro m
  induction m with
  | zero =>
    intro fuel c s sl hfuel hc hpre hterm
    have ht : statuses (c - 1) = "Completed" ∨ statuses (c - 1) = "Failed" := by
      simpa using hterm
    cases fuel <;> simp [pollLoop, ht]
  | succ m ih =>
    intro fuel c s sl hfuel hc hpre hterm
    obtain ⟨f, rfl⟩ : ∃ f, fuel = f + 1 := ⟨fuel - 1, by omega⟩
    have hnt : ¬(statuses (c - 1) = "Completed" ∨ statuses (c - 1) = "Failed") := by
      have h := hpre 0 (Nat.succ_pos m)
      simpa using h
    have hrec := ih f (c + 1) (s + 1) (sl + 60) (by omega) (by omega)
      (fun j hj => by
        have h := hpre (j + 1) (by omega)
        rw [show c + 1 - 1 + j = c - 1 + (j + 1) by omega]
        exact h)
      (by
        rw [show c + 1 - 1 + m = c - 1 + (m + 1) by omega]
        exact hterm)
    simp only [show c + 1 - 1 = c from by omega] at hrec
    simp only [pollLoop, hnt, if_false]
    rw [hrec, show c + m = c - 1 + (m + 1) by omega,
      show c + 1 + m = c + (m + 1) by omega,
      show s + 1 + m = s + (m + 1) by omega,
      show sl + 60 + 60 * m = sl + 60 * (m + 1) by ring]

/-- When no status is ever terminal, the training-status polling loop
never exits, whatever the fuel: it has no timeout bound of its own. -/
theorem pollLoop_noterm (statuses : Nat → String) :
    ∀ (fuel : Nat) (st : String) (c s sl : Nat),
    ¬(st = "Completed" ∨ st = "Failed") →
    (∀ j, ¬(statuses j = "Completed" ∨ statuses j = "Failed")) →
    pollLoop statuses fuel st c s sl = none := by
  intro fuel
  induction fuel with
  | zero =>
    intro st c s sl hst hall
    simp [pollLoop, hst]
  | succ f ih =>
    intro st c s sl hst hall
    simp only [pollLoop, hst, if_false]
    exact ih (statuses c) (c + 1) (s + 1) (sl + 60) (hall c) hall

example : wait_till_delete probeNF3 5 (some 100) 10 =
    some ⟨.success, 3, 2, 10, 10⟩ := by decide

example : wait_till_delete probeNF3 5 (some 5) 10 =
    some ⟨.timedOut, 1, 1, 5, 5⟩ := by decide

example : wait_till_delete (fun _ => .ret) 5 (some 100) 30 =
    some ⟨.timedOut, 20, 20, 100, 100⟩ := by decide

example : pollTraining (fun n => if n < 2 then "InProgress" else "Completed") 10 =
    some ⟨"Completed", 3, 2, 120⟩ := by decide

/-- C1 counterexample: for check_interval = 5 and the probe that raises
the not-found error on its 3rd invocation (k = 3), the call with
timeout = 5 does NOT return normally after 3 probe invocations: the
timeout preempts the wait after a single invocation and one sleep, so
the claim is false as stated (it holds only when the timeout does not
expire first). -/
theorem claim_C1_counterexample :
    wait_till_delete probeNF3 5 (some 5) 10 = some ⟨.timedOut, 1, 1, 5, 5⟩ ∧
    wait_till_delete probeNF3 5 (some 5) 10 ≠ some ⟨.success, 3, 2, 10, 10⟩ := by
  constructor
  · decide
  · decide

/-- C1 (amended): for every check_interval > 0 and every probe that
raises the not-found error on its k-th invocation and returns normally
on each of the k-1 prior invocations, provided the timeout is None or
exceeds (k-1) x check_interval, wait_till_delete returns normally after
exactly k probe invocations, having slept exactly k-1 times with each
sleep equal to the fixed check_interval (total sleep (k-1) x
check_interval, no backoff). -/
theorem claim_C1 (p : Nat → ProbeOutcome) (ct k : Nat) (timeout : Option Nat)
    (fuel : Nat) (_hct : 0 < ct) (hk : 0 < k)
    (hret : ∀ j, j + 1 < k → p j = .ret)
    (hnf : p (k - 1) = .raiseClient resourceNotFound)
    (ht : timeout = none ∨ ∃ T, timeout = some T ∧ (k - 1) * ct < T)
    (hfuel : k ≤ fuel) :
    wait_till_delete p ct timeout fuel =
      some ⟨.success, k, k - 1, (k - 1) * ct, (k - 1) * ct⟩ := by
  have h := waitLoop_success_run p ct timeout (k - 1) fuel 0 0 0 0 (by omega)
    (fun j hj => by
      have hr := hret j (by omega)
      simpa using hr)
    (by simpa using hnf)
    (fun j hj => by
      rcases ht with h1 | ⟨T, h2, h3⟩
      · rw [h1]
        rfl
      · rw [h2]
        simp only [loopCond, decide_eq_true_eq]
        have hle : j * ct ≤ (k - 1) * ct := Nat.mul_le_mul hj (Nat.le_refl ct)
        omega)
  rw [wait_till_delete, h, show 0 + (k - 1) + 1 = k by omega]
  simp

/-- C1 witness, the scenario of the specification: check_interval = 5,
timeout = 100, probe raising not-found on call 3 returns normally after
3 invocations and 2 sleeps totalling 10 seconds. -/
theorem claim_C1_witness :
    wait_till_delete probeNF3 5 (some 100) 10 =
      some ⟨.success, 3, 3 - 1, (3 - 1) * 5, (3 - 1) * 5⟩ :=
  claim_C1 probeNF3 5 3 (some 100) 10 (by decide) (by decide)
    (fun j hj => by
      have h2 : j < 2 := by omega
      simp [probeNF3, h2])
    (by decide)
    (Or.inr ⟨100, rfl, by decide⟩)
    (by decide)

/-- C2: for every finite timeout T and check_interval > 0, if the probe
always returns normally, wait_till_delete raises TimeoutError exactly
when the accumulated elapsed time first reaches or exceeds T (m being
that first iteration count), with exactly m probe invocations and m
sleeps and nothing after that point. -/
theorem claim_C2 (p : Nat → ProbeOutcome) (ct T m fuel : Nat)
    (_hct : 0 < ct) (hp : ∀ i, p i = .ret)
    (hbelow : ∀ j, j < m → j * ct < T) (hreach : T ≤ m * ct)
    (hfuel : m < fuel) :
    wait_till_delete p ct (some T) fuel =
      some ⟨.timedOut, m, m, m * ct, m * ct⟩ := by
  have h := waitLoop_timeout_run p ct T m fuel 0 0 0 0 hfuel hp
    (fun j hj => by simpa using hbelow j hj)
    (by simpa using hreach)
  rw [wait_till_delete, h]
  simp

/-- C2 witness: with check_interval 5 and timeout 100 a probe that never
raises times out after exactly 20 invocations and 100 accumulated
seconds. -/
theorem claim_C2_witness :
    wait_till_delete (fun _ => ProbeOutcome.ret) 5 (some 100) 21 =
      some ⟨.timedOut, 20, 20, 20 * 5, 20 * 5⟩ :=
  claim_C2 (fun _ => ProbeOutcome.ret) 5 100 20 21 (by decide)
    (fun _ => rfl) (by decide) (by decide) (by decide)

/-- C3: for every probe whose first invocation raises a failure that is
not the not-found ClientError, and any check_interval and timeout under
which that first invocation occurs (timeout None or positive, the only
case in which the loop body runs at all), wait_till_delete propagates
that same failure immediately: exactly one probe invocation, no sleep,
no retry. -/
theorem claim_C3 (p : Nat → ProbeOutcome) (ct : Nat) (timeout : Option Nat)
    (fuel : Nat) (henter : loopCond timeout 0 = true) :
    (∀ code, code ≠ resourceNotFound → p 0 = .raiseClient code →
      wait_till_delete p ct timeout (fuel + 1) =
        some ⟨.raisedClient code, 1, 0, 0, 0⟩) ∧
    (∀ tag, p 0 = .raiseOther tag →
      wait_till_delete p ct timeout (fuel + 1) =
        some ⟨.raisedOther tag, 1, 0, 0, 0⟩) := by
  constructor
  · intro code hcode hp
    simp [wait_till_delete, waitLoop, henter, hp, hcode]
  · intro tag hp
    simp [wait_till_delete, waitLoop, henter, hp]

/-- C3 witness: a probe raising a ClientError with code
AccessDeniedException on its first call, with the default interval and
timeout, propagates that error after one invocation and no sleep. -/
theorem claim_C3_witness :
    wait_till_delete (fun _ => ProbeOutcome.raiseClient "AccessDeniedException")
        5 (some 100) 10 =
      some ⟨.raisedClient "AccessDeniedException", 1, 0, 0, 0⟩ :=
  (claim_C3 (fun _ => ProbeOutcome.raiseClient "AccessDeniedException")
      5 (some 100) 9 (by decide)).1
    "AccessDeniedException" (by decide) rfl

/-- C4 counterexample: with timeout = 0 the loop condition 0 < 0 is
false on entry, so wait_till_delete raises TimeoutError after ZERO probe
invocations, even for a probe that would signal not-found immediately;
the claim that at least one probe occurs before a TimeoutError can be
raised is false. -/
theorem claim_C4_counterexample :
    wait_till_delete (fun _ => ProbeOutcome.raiseClient resourceNotFound)
        5 (some 0) 1 =
      some ⟨.timedOut, 0, 0, 0, 0⟩ := by decide

/-- C4 (amended): when wait_till_delete is called with timeout = 0, the
loop condition is false on entry, so NO probe invocation occurs and
TimeoutError is raised immediately; a probe invocation precedes any
TimeoutError only when the timeout is positive (or None, in which case
no TimeoutError occurs). -/
theorem claim_C4 :
    (∀ (p : Nat → ProbeOutcome) (ct fuel : Nat),
      wait_till_delete p ct (some 0) fuel = some ⟨.timedOut, 0, 0, 0, 0⟩) ∧
    (∀ (p : Nat → ProbeOutcome) (ct T fuel : Nat) (r : WaitTrace), 0 < T →
      wait_till_delete p ct (some T) fuel = some r → 1 ≤ r.calls) := by
  constructor
  · intro p ct fuel
    have h0 : loopCond (some 0) 0 = false := rfl
    cases fuel <;> simp [wait_till_delete, waitLoop, h0]
  · intro p ct T fuel r hT h
    have h0 : loopCond (some T) 0 = true := by
      simp only [loopCond, decide_eq_true_eq]
      omega
    cases fuel with
    | zero =>
      rw [wait_till_delete] at h
      simp [waitLoop, h0] at h
    | succ f =>
      rw [wait_till_delete] at h
      simp only [waitLoop, h0, if_true] at h
      cases hp : p 0 with
      | ret =>
        rw [hp] at h
        have := waitLoop_calls_mono p ct (some T) f (0 + ct) 1 1 (0 + ct) r h
        omega
      | raiseClient code =>
        rw [hp] at h
        by_cases hc : code = resourceNotFound <;>
          · simp only [hc, if_true, if_false, Option.some.injEq] at h
            rw [← h]
      | raiseOther tag =>
        rw [hp] at h
        simp only [Option.some.injEq] at h
        rw [← h]

/-- C4 witness: concrete timeout = 0 run with zero probe invocations,
and a positive-timeout run whose trace indeed has at least one probe
invocation. -/
theorem claim_C4_witness :
    wait_till_delete (fun _ => ProbeOutcome.ret) 7 (some 0) 3 =
      some ⟨.timedOut, 0, 0, 0, 0⟩ ∧
    (0 < 100 ∧
      1 ≤ (⟨WaitResult.timedOut, 20, 20, 100, 100⟩ : WaitTrace).calls) :=
  ⟨claim_C4.1 (fun _ => ProbeOutcome.ret) 7 3,
   by decide,
   claim_C4.2 (fun _ => ProbeOutcome.ret) 5 100 25
     ⟨WaitResult.timedOut, 20, 20, 100, 100⟩ (by decide) (by decide)⟩

/-- C5: with timeout = None and the probe that raises not-found on its
3rd invocation, wait_till_delete succeeds after 3 invocations whatever
the check_interval (however large the elapsed time 2 x check_interval
grows), and more generally a None timeout never produces a TimeoutError
on any finished run. -/
theorem claim_C5 :
    (∀ (ct fuel : Nat), 2 < fuel →
      wait_till_delete probeNF3 ct none fuel =
        some ⟨.success, 3, 2, 2 * ct, 2 * ct⟩) ∧
    (∀ (p : Nat → ProbeOutcome) (ct fuel : Nat) (r : WaitTrace),
      wait_till_delete p ct none fuel = some r → r.result ≠ .timedOut) := by
  constructor
  · intro ct fuel hfuel
    have h := waitLoop_success_run probeNF3 ct none 2 fuel 0 0 0 0 (by omega)
      (fun j hj => by
        have h2 : j < 2 := by omega
        simp [probeNF3, h2])
      (by simp [probeNF3])
      (fun j hj => rfl)
    rw [wait_till_delete, h]
    simp
  · intro p ct fuel r h
    exact waitLoop_none_not_timedOut p ct fuel 0 0 0 0 r h

/-- C5 witness: with check_interval 7 and timeout None, the 3rd-call
not-found probe succeeds after 3 invocations and 14 elapsed seconds,
and that run is not a timeout. -/
theorem claim_C5_witness :
    wait_till_delete probeNF3 7 none 5 = some ⟨.success, 3, 2, 2 * 7, 2 * 7⟩ ∧
    (⟨WaitResult.success, 3, 2, 14, 14⟩ : WaitTrace).result ≠ .timedOut :=
  ⟨claim_C5.1 7 5 (by decide),
   claim_C5.2 probeNF3 7 5 ⟨WaitResult.success, 3, 2, 14, 14⟩ (by decide)⟩

/-- C6: two sequential calls of wait_till_delete are independent: each
component of runTwice equals a fresh call with the same arguments, and
the second outcome is unchanged under any change of the first call's
probe and arguments (no mutable state is shared between invocations;
the source function touches only its local variables). -/
theorem claim_C6 (p1 p2 : Nat → ProbeOutcome) (ct1 ct2 : Nat)
    (t1 t2 : Option Nat) (fuel1 fuel2 : Nat) :
    (runTwice p1 p2 ct1 ct2 t1 t2 fuel1 fuel2).2 =
      wait_till_delete p2 ct2 t2 fuel2 ∧
    (runTwice p1 p2 ct1 ct2 t1 t2 fuel1 fuel2).1 =
      wait_till_delete p1 ct1 t1 fuel1 ∧
    ∀ (q1 : Nat → ProbeOutcome) (d1 : Nat) (u1 : Option Nat) (g1 : Nat),
      (runTwice p1 p2 ct1 ct2 t1 t2 fuel1 fuel2).2 =
        (runTwice q1 p2 d1 ct2 u1 t2 g1 fuel2).2 :=
  ⟨rfl, rfl, fun _ _ _ _ => rfl⟩

/-- C7: the training-status polling loop exits exactly at the first
observed terminal status (Completed or Failed): if the first k statuses
are non-terminal and the (k+1)-th is terminal, it performs k+1 status
reads and k sleeps of 60 seconds, never sleeping or re-querying after
the terminal observation; and if no status is ever terminal it never
exits (the loop has no timeout bound of its own). -/
theorem claim_C7 :
    (∀ (statuses : Nat → String) (k fuel : Nat),
      (∀ j, j < k → ¬(statuses j = "Completed" ∨ statuses j = "Failed")) →
      (statuses k = "Completed" ∨ statuses k = "Failed") →
      k ≤ fuel →
      pollTraining statuses fuel = some ⟨statuses k, k + 1, k, 60 * k⟩) ∧
    (∀ (statuses : Nat → String) (fuel : Nat),
      (∀ j, ¬(statuses j = "Completed" ∨ statuses j = "Failed")) →
      pollTraining statuses fuel = none) := by
  constructor
  · intro statuses k fuel hpre hterm hfuel
    have h := pollLoop_run statuses k fuel 1 0 0 hfuel (Nat.le_refl 1)
      (fun j hj => by simpa using hpre j hj)
      (by simpa using hterm)
    rw [pollTraining]
    simp only [show (1 : Nat) - 1 = 0 from rfl, Nat.zero_add] at h
    rw [h]
    simp [Nat.add_comm]
  · intro statuses fuel hall
    exact pollLoop_noterm statuses fuel (statuses 0) 1 0 0 (hall 0) hall

/-- C7 witness: two InProgress reads followed by Completed exit after 3
reads and 2 sleeps (120 seconds); an always-InProgress job never makes
the loop exit. -/
theorem claim_C7_witness :
    pollTraining (fun n => if n < 2 then "InProgress" else "Completed") 10 =
      some ⟨"Completed", 2 + 1, 2, 60 * 2⟩ ∧
    pollTraining (fun _ => "InProgress") 4 = none :=
  ⟨by
    have h := claim_C7.1 (fun n => if n < 2 then "InProgress" else "Completed")
      2 10 (by decide) (by decide) (by decide)
    simpa using h,
   claim_C7.2 (fun _ => "InProgress") 4 (fun j => by simp)⟩

/-- C8: with the default arguments check_time = 5 and timeout = 100,
every finished run performs at most 20 probe invocations; the default
wait always finishes given enough fuel (it is never unbounded); and a
probe that always returns normally hits TimeoutError after exactly 20
invocations and 100 accumulated seconds. -/
theorem claim_C8 :
    (∀ (p : Nat → ProbeOutcome) (fuel : Nat) (r : WaitTrace),
      wait_till_delete_defaults p fuel = some r → r.calls ≤ 20) ∧
    (∀ (p : Nat → ProbeOutcome) (fuel : Nat), 100 < fuel →
      (wait_till_delete_defaults p fuel).isSome = true) ∧
    (∀ (p : Nat → ProbeOutcome) (fuel : Nat), (∀ i, p i = .ret) → 20 < fuel →
      wait_till_delete_defaults p fuel =
        some ⟨.timedOut, 20, 20, 100, 100⟩) := by
  refine ⟨?_, ?_, ?_⟩
  · intro p fuel r h
    have hb := waitLoop_calls_bound p 5 100 fuel 0 0 0 0 r (by omega) h
    omega
  · intro p fuel hfuel
    exact waitLoop_total p 5 100 (by omega) fuel 0 0 0 0 (by omega)
  · intro p fuel hp hfuel
    have h := claim_C2 p 5 100 20 fuel (by omega) hp
      (fun j hj => by omega) (by omega) hfuel
    rw [wait_till_delete_defaults, h]

/-- C8 witness: the default run of an always-normal probe finishes as a
TimeoutError at exactly 20 probe invocations, is defined at fuel 101,
and its invocation count is within the bound 20. -/
theorem claim_C8_witness :
    20 ≤ 20 ∧
    (wait_till_delete_defaults (fun _ => ProbeOutcome.ret) 101).isSome = true ∧
    wait_till_delete_defaults (fun _ => ProbeOutcome.ret) 21 =
      some ⟨.timedOut, 20, 20, 100, 100⟩ :=
  ⟨claim_C8.1 (fun _ => ProbeOutcome.ret) 25
     ⟨WaitResult.timedOut, 20, 20, 100, 100⟩ (by decide),
   claim_C8.2.1 (fun _ => ProbeOutcome.ret) 101 (by decide),
   claim_C8.2.2 (fun _ => ProbeOutcome.ret) 21 (fun _ => rfl) (by decide)⟩

/-- C9: on its first invocation (which occurs whenever the timeout is
None or positive), only a ClientError whose code is exactly the string
ResourceNotFoundException makes wait_till_delete return normally; a
ClientError with any other code is re-raised unchanged, and an exception
of any other type is propagated unchanged, each after exactly one
invocation with no sleep and no retry. -/
theorem claim_C9 (p : Nat → ProbeOutcome) (ct : Nat) (timeout : Option Nat)
    (fuel : Nat) (henter : loopCond timeout 0 = true) :
    (p 0 = .raiseClient resourceNotFound →
      wait_till_delete p ct timeout (fuel + 1) =
        some ⟨.success, 1, 0, 0, 0⟩) ∧
    (∀ code, code ≠ resourceNotFound → p 0 = .raiseClient code →
      wait_till_delete p ct timeout (fuel + 1) =
        some ⟨.raisedClient code, 1, 0, 0, 0⟩) ∧
    (∀ tag, p 0 = .raiseOther tag →
      wait_till_delete p ct timeout (fuel + 1) =
        some ⟨.raisedOther tag, 1, 0, 0, 0⟩) := by
  refine ⟨?_, ?_, ?_⟩
  · intro hp
    simp [wait_till_delete, waitLoop, henter, hp]
  · intro code hcode hp
    simp [wait_till_delete, waitLoop, henter, hp, hcode]
  · intro tag hp
    simp [wait_till_delete, waitLoop, henter, hp]

/-- C9 witness: the exact code ResourceNotFoundException succeeds; the
ClientError code ValidationException is re-raised; and an exception of
another type is propagated even when its text is
ResourceNotFoundException (semantically meaning absence is not enough:
only the ClientError code is inspected). -/
theorem claim_C9_witness :
    wait_till_delete (fun _ => ProbeOutcome.raiseClient resourceNotFound)
        3 (some 10) 6 = some ⟨.success, 1, 0, 0, 0⟩ ∧
    wait_till_delete (fun _ => ProbeOutcome.raiseClient "ValidationException")
        3 (some 10) 6 = some ⟨.raisedClient "ValidationException", 1, 0, 0, 0⟩ ∧
    wait_till_delete (fun _ => ProbeOutcome.raiseOther "ResourceNotFoundException")
        3 (some 10) 6 =
      some ⟨.raisedOther "ResourceNotFoundException", 1, 0, 0, 0⟩ :=
  ⟨(claim_C9 (fun _ => ProbeOutcome.raiseClient resourceNotFound)
      3 (some 10) 5 (by decide)).1 rfl,
   (claim_C9 (fun _ => ProbeOutcome.raiseClient "ValidationException")
      3 (some 10) 5 (by decide)).2.1 "ValidationException" (by decide) rfl,
   (claim_C9 (fun _ => ProbeOutcome.raiseOther "ResourceNotFoundException")
      3 (some 10) 5 (by decide)).2.2 "ResourceNotFoundException" rfl⟩

/-- C10: on every finished run of wait_till_delete, the final
elapsed_time equals the number of completed iterations (= sleeps) times
check_time, and equals the total time actually slept: elapsed_time is
incremented only by check_time, once per completed iteration after its
sleep, so the timeout bounds accumulated configured sleep time only. -/
theorem claim_C10 (p : Nat → ProbeOutcome) (ct : Nat) (timeout : Option Nat)
    (fuel : Nat) (r : WaitTrace)
    (h : wait_till_delete p ct timeout fuel = some r) :
    r.elapsed = r.sleeps * ct ∧ r.slept = r.elapsed :=
  waitLoop_elapsed_invariant p ct timeout fuel 0 0 0 0 r (by omega) rfl h

/-- C10 witness: the scenario run (3 calls, 2 sleeps of 5 seconds) has
elapsed_time 10 = 2 x 5 = total slept time. -/
theorem claim_C10_witness :
    (⟨WaitResult.success, 3, 2, 10, 10⟩ : WaitTrace).elapsed =
      (⟨WaitResult.success, 3, 2, 10, 10⟩ : WaitTrace).sleeps * 5 ∧
    (⟨WaitResult.success, 3, 2, 10, 10⟩ : WaitTrace).slept =
      (⟨WaitResult.success, 3, 2, 10, 10⟩ : WaitTrace).elapsed :=
  claim_C10 probeNF3 5 (some 100) 10 ⟨WaitResult.success, 3, 2, 10, 10⟩
    (by decide)
